import Mathlib

/-!
Shallow embedding of the wokwi-rust-demo digital clock
(src/clock.rs, src/display.rs, src/main.rs).

Machine integers (`u8`, `u32`, `usize`) are modelled as `Nat`; every
theorem that needs it carries the range hypotheses under which the source
arithmetic neither overflows nor panics.  The fallible parts of the
compositor (font-table indexing, the `31 - (cursor + c)` subtraction) are
additionally modelled by a checked `Option`-valued variant, so that
panic-freedom is a provable statement.
-/

/-- ClockState from src/clock.rs: time-of-day value `{hours, mins, secs}`. -/
structure ClockState where
  hours : Nat
  mins : Nat
  secs : Nat
deriving DecidableEq, Repr

/-- ClockState::add_minute from src/clock.rs:
`mins += 1; if mins >= 60 { mins = 0; hours = (hours + 1) % 24; }`. -/
def ClockState.add_minute (s : ClockState) : ClockState :=
  let s := { s with mins := s.mins + 1 }
  if s.mins ≥ 60 then { s with mins := 0, hours := (s.hours + 1) % 24 } else s

/-- ClockState::tick from src/clock.rs:
`secs += 1; if secs >= 60 { secs = 0; add_minute(); }`. -/
def ClockState.tick (s : ClockState) : ClockState :=
  let s := { s with secs := s.secs + 1 }
  if s.secs ≥ 60 then ClockState.add_minute { s with secs := 0 } else s

/-- The range invariant on ClockState stated in the spec:
hours in 0..23, mins in 0..59, secs in 0..59. -/
def ClockState.inRange (s : ClockState) : Prop :=
  s.hours ≤ 23 ∧ s.mins ≤ 59 ∧ s.secs ≤ 59

instance (s : ClockState) : Decidable s.inRange := by
  unfold ClockState.inRange; infer_instance

/-- The inline clock mutation performed by the `timer_tick` task in
src/main.rs (lines 183-193).  Note that, unlike `ClockState::tick`, the
minute-rollover check here is a second, non-nested `if`. -/
def timerTickClock (c : ClockState) : ClockState :=
  let c := { c with secs := c.secs + 1 }
  let c := if c.secs ≥ 60 then { c with secs := 0, mins := c.mins + 1 } else c
  if c.mins ≥ 60 then { c with mins := 0, hours := (c.hours + 1) % 24 } else c

/-- The inline clock mutation performed by the `button_press` task in
src/main.rs (lines 211-217). -/
def buttonPressClock (c : ClockState) : ClockState :=
  let c := { c with mins := c.mins + 1 }
  if c.mins ≥ 60 then { c with mins := 0, hours := (c.hours + 1) % 24 } else c

/-- The program state visible to the interrupt handlers of src/main.rs,
beyond the shared clock: whether the button falling-edge interrupt source
is enabled (set once in `init`, line 137, and never toggled afterwards),
whether a one-shot auto-repeat timer is armed and with which interval in
microseconds (src/main.rs allocates no such timer: the only alarm is the
periodic 1 Hz alarm owned by `timer_tick`), and whether an
`update_display` run has been requested via `spawn`. -/
structure ProgState where
  clock : ClockState
  edgeInterruptEnabled : Bool
  repeatTimer : Option Nat
  displayRequested : Bool
deriving DecidableEq, Repr

/-- The `timer_tick` task of src/main.rs as a transformation of the
program state: mutate the clock under the lock, then spawn
`update_display` (alarm re-arm and LED toggle are local I/O). -/
def timer_tick (s : ProgState) : ProgState :=
  { s with clock := timerTickClock s.clock, displayRequested := true }

/-- The `button_press` task of src/main.rs as a transformation of the
program state: clear the edge interrupt flag, mutate the clock under the
lock, then spawn `update_display`.  The handler never touches the
edge-interrupt enable and never arms any timer. -/
def button_press (s : ProgState) : ProgState :=
  { s with clock := buttonPressClock s.clock, displayRequested := true }

/-- The state produced by `init` in src/main.rs: clock `12:34:56`
(line 161), button edge interrupt enabled (line 137), no repeat timer,
no display update pending yet. -/
def initProgState : ProgState :=
  { clock := { hours := 12, mins := 34, secs := 56 },
    edgeInterruptEnabled := true,
    repeatTimer := none,
    displayRequested := false }

/-- FONT from src/main.rs (lines 9-54): 11 glyphs (digits 0-9 and a
colon), each 8 rows of 3 columns, a pixel being a nonzero entry. -/
def FONT : List (List (List Nat)) :=
  [ [ [0, 1, 0], [1, 0, 1], [1, 0, 1], [1, 0, 1],
      [1, 0, 1], [1, 0, 1], [1, 0, 1], [0, 1, 0] ],
    [ [0, 0, 1], [0, 1, 1], [1, 0, 1], [0, 0, 1],
      [0, 0, 1], [0, 0, 1], [0, 0, 1], [0, 0, 1] ],
    [ [0, 1, 0], [1, 0, 1], [0, 0, 1], [0, 1, 0],
      [1, 0, 0], [1, 0, 0], [1, 0, 0], [1, 1, 1] ],
    [ [0, 1, 0], [1, 0, 1], [0, 0, 1], [0, 1, 0],
      [0, 0, 1], [0, 0, 1], [1, 0, 1], [0, 1, 0] ],
    [ [0, 0, 1], [0, 1, 1], [1, 0, 1], [1, 0, 1],
      [1, 1, 1], [0, 0, 1], [0, 0, 1], [0, 0, 1] ],
    [ [1, 1, 1], [1, 0, 0], [1, 0, 0], [1, 1, 0],
      [0, 0, 1], [0, 0, 1], [1, 0, 1], [0, 1, 0] ],
    [ [0, 1, 0], [1, 0, 0], [1, 0, 0], [1, 1, 0],
      [1, 0, 1], [1, 0, 1], [1, 0, 1], [0, 1, 0] ],
    [ [1, 1, 1], [0, 0, 1], [0, 0, 1], [0, 1, 0],
      [0, 1, 0], [0, 1, 0], [0, 1, 0], [0, 1, 0] ],
    [ [0, 1, 0], [1, 0, 1], [1, 0, 1], [0, 1, 0],
      [1, 0, 1], [1, 0, 1], [1, 0, 1], [0, 1, 0] ],
    [ [0, 1, 0], [1, 0, 1], [1, 0, 1], [0, 1, 1],
      [0, 0, 1], [0, 0, 1], [0, 0, 1], [0, 1, 0] ],
    [ [0, 0, 0], [0, 0, 0], [0, 1, 0], [0, 0, 0],
      [0, 0, 0], [0, 1, 0], [0, 0, 0], [0, 0, 0] ] ]

/-- Modelled from the spec: src/display.rs reads `crate::font::FONT`, and
the `font` module is not among the source files under src/.  Per the spec
(the glyph table is the 11 immutable glyphs, digits 0-9 plus a colon,
each 8 rows by 3 columns) and the comment on the table in src/main.rs
("same as before"), it is the same table as `FONT` in src/main.rs. -/
def fontFONT : List (List (List Nat)) := FONT

/-! ### The compositor of src/display.rs (`prepare_buffer`) -/

/-- Pixel lookup `FONT[d][r][c]` as performed by src/display.rs via
`crate::font::FONT`; out-of-bounds indices (which would panic in the
source) return 0 here, and the checked variant below accounts for them. -/
def fontPixel (d r c : Nat) : Nat :=
  ((fontFONT.getD d []).getD r []).getD c 0

/-- Setting one framebuffer bit, src/display.rs lines 23-26:
`let bit_pos = 31 - (cursor + c); if bit_pos < 32 { row |= 1 << bit_pos }`. -/
def placePixel (cursor c row : Nat) : Nat :=
  let bit_pos := 31 - (cursor + c)
  if bit_pos < 32 then row ||| (1 <<< bit_pos) else row

/-- The inner `c` loop of src/display.rs for one glyph row. -/
def glyphRow (d r cursor row : Nat) : Nat :=
  (List.range 3).foldl
    (fun row c => if fontPixel d r c ≠ 0 then placePixel cursor c row else row)
    row

/-- The `r` loop of src/display.rs: place glyph `d` at column `cursor`
into all 8 framebuffer rows. -/
def placeGlyph (fb : List Nat) (cursor d : Nat) : List Nat :=
  (List.range 8).map fun r => glyphRow d r cursor (fb.getD r 0)

/-- The enumerate loop of src/display.rs lines 19-34: place each glyph,
then `cursor += 3; if i < 7 { cursor += 1 }`. -/
def composeGo : List Nat → Nat → Nat → List Nat → List Nat
  | fb, _, _, [] => fb
  | fb, cursor, i, d :: rest =>
      composeGo (placeGlyph fb cursor d)
        (if i < 7 then cursor + 3 + 1 else cursor + 3) (i + 1) rest

/-- The digit-index array of src/display.rs lines 8-14:
`[h/10, h%10, 10, m/10, m%10, 10, s/10, s%10]` (10 is the colon). -/
def digits (h m s : Nat) : List Nat :=
  [h / 10, h % 10, 10, m / 10, m % 10, 10, s / 10, s % 10]

/-- The 8 packed 32-bit framebuffer rows built by src/display.rs
lines 16-34 (column 0 is the most significant bit). -/
def composeRows (h m s : Nat) : List Nat :=
  composeGo (List.replicate 8 0) 0 0 (digits h m s)

/-- One device byte, src/display.rs lines 39-40:
`(fb_rows[r] >> (24 - dev_idx * 8)) & 0xFF`. -/
def deviceByte (rows : List Nat) (d r : Nat) : Nat :=
  ((rows.getD r 0) >>> (24 - d * 8)) &&& 0xFF

/-- The device-slicing loop of src/display.rs lines 36-42. -/
def deviceBuffers (rows : List Nat) : List (List Nat) :=
  (List.range 4).map fun d => (List.range 8).map fun r => deviceByte rows d r

/-- prepare_buffer from src/display.rs: the full compositor, from a clock
snapshot to the four 8-byte device buffers. -/
def prepare_buffer (clock : ClockState) : List (List Nat) :=
  deviceBuffers (composeRows clock.hours clock.mins clock.secs)

/-! ### Checked compositor

The source indexes `FONT[d as usize]` (a panic when `d ≥ 11`) and
computes `31 - (cursor + c)` on `usize` (a panic on underflow, i.e. when
`cursor + c > 31`).  The checked variant returns `none` exactly when a
glyph index leaves the 11-entry table or a placement column leaves
0..30, and otherwise computes precisely what the unchecked compositor
computes. -/

/-- Checked placement of one glyph: requires the glyph index to be inside
the 11-entry font table and every touched column `cursor + c`, `c < 3`,
to stay at most 30. -/
def checkedPlaceGlyph (fb : List Nat) (cursor d : Nat) : Option (List Nat) :=
  if d < 11 ∧ cursor + 2 ≤ 30 then some (placeGlyph fb cursor d) else none

/-- Checked version of the glyph-placement loop. -/
def checkedComposeGo : List Nat → Nat → Nat → List Nat → Option (List Nat)
  | fb, _, _, [] => some fb
  | fb, cursor, i, d :: rest => do
      let fb ← checkedPlaceGlyph fb cursor d
      checkedComposeGo fb (if i < 7 then cursor + 3 + 1 else cursor + 3) (i + 1) rest

/-- Checked version of `composeRows`. -/
def checkedComposeRows (h m s : Nat) : Option (List Nat) :=
  checkedComposeGo (List.replicate 8 0) 0 0 (digits h m s)

/-! ### The duplicated compositor inside `update_display` in src/main.rs -/

/-- Pixel lookup against the `FONT` table local to src/main.rs, as done
in `update_display` (line 242). -/
def appFontPixel (d r c : Nat) : Nat :=
  ((FONT.getD d []).getD r []).getD c 0

/-- Setting one framebuffer bit, src/main.rs lines 243-246. -/
def appPlacePixel (cursor c row : Nat) : Nat :=
  let bit_pos := 31 - (cursor + c)
  if bit_pos < 32 then row ||| (1 <<< bit_pos) else row

/-- The inner `c` loop of `update_display` for one glyph row. -/
def appGlyphRow (d r cursor row : Nat) : Nat :=
  (List.range 3).foldl
    (fun row c => if appFontPixel d r c ≠ 0 then appPlacePixel cursor c row else row)
    row

/-- The `r` loop of `update_display`. -/
def appPlaceGlyph (fb : List Nat) (cursor d : Nat) : List Nat :=
  (List.range 8).map fun r => appGlyphRow d r cursor (fb.getD r 0)

/-- The enumerate loop of src/main.rs lines 238-254. -/
def appComposeGo : List Nat → Nat → Nat → List Nat → List Nat
  | fb, _, _, [] => fb
  | fb, cursor, i, d :: rest =>
      appComposeGo (appPlaceGlyph fb cursor d)
        (if i < 7 then cursor + 3 + 1 else cursor + 3) (i + 1) rest

/-- The digit-index array of src/main.rs lines 227-233. -/
def appDigits (h m s : Nat) : List Nat :=
  [h / 10, h % 10, 10, m / 10, m % 10, 10, s / 10, s % 10]

/-- The 8 packed framebuffer rows built inline by `update_display`. -/
def appComposeRows (h m s : Nat) : List Nat :=
  appComposeGo (List.replicate 8 0) 0 0 (appDigits h m s)

/-- One device byte, src/main.rs lines 260-261. -/
def appDeviceByte (rows : List Nat) (d r : Nat) : Nat :=
  ((rows.getD r 0) >>> (24 - d * 8)) &&& 0xFF

/-- The device-slicing loop of src/main.rs lines 257-262. -/
def appDeviceBuffers (rows : List Nat) : List (List Nat) :=
  (List.range 4).map fun d => (List.range 8).map fun r => appDeviceByte rows d r

/-- The pure content of the `update_display` task in src/main.rs: from
the locked snapshot `(h, m, s)` (line 225) to the four 8-byte buffers
passed to `write_raw`. -/
def update_display (h m s : Nat) : List (List Nat) :=
  appDeviceBuffers (appComposeRows h m s)

/-! ### Auto-repeat interval model -/

/-- Modelled from the spec: no auto-repeat controller exists under src/
(the `button_press` handler of src/main.rs adds a minute and returns).
The spec defines the next repeat interval as
`max(floor, current_interval × 0.8)` with `floor` = 20000 microseconds;
intervals are modelled as rationals so that `× 0.8` is exact. -/
def nextInterval (i : ℚ) : ℚ := max 20000 (i * (8 / 10))

/-- Modelled from the spec: the sequence of repeat intervals over a hold,
starting from the initial 500000 microseconds. -/
def repeatSeq : Nat → ℚ
  | 0 => 500000
  | n + 1 => nextInterval (repeatSeq n)

/-! ### Helper lemmas -/

/-- Indexing a map over `List.range 8` at an index below 8. -/
theorem getD_range8_map (f : Nat → Nat) {r : Nat} (hr : r < 8) :
    ((List.range 8).map f).getD r 0 = f r := by
  interval_cases r <;> rfl

/-- Placing one pixel at an absolute column of at most 30 keeps bit 0 of
the packed row clear and keeps the row below `2 ^ 32`. -/
theorem placePixel_ok (cursor c row : Nat) (hcc : cursor + c ≤ 30)
    (h0 : row.testBit 0 = false) (h32 : row < 2 ^ 32) :
    (placePixel cursor c row).testBit 0 = false ∧ placePixel cursor c row < 2 ^ 32 := by
  rw [placePixel]
  have hbp : 31 - (cursor + c) < 32 := by omega
  rw [if_pos hbp]
  have hsh : (1 <<< (31 - (cursor + c))) = 2 ^ (31 - (cursor + c)) := Nat.one_shiftLeft _
  constructor
  · rw [Nat.testBit_or, h0, hsh]
    simp [Nat.testBit_two_pow]
    omega
  · refine Nat.or_lt_two_pow h32 ?_
    rw [hsh]
    exact Nat.pow_lt_pow_right one_lt_two hbp

/-- One step of the inner `c` loop preserves the row invariant. -/
theorem glyphRow_step_ok (d r cursor c row : Nat) (hcur : cursor ≤ 28) (hc : c ≤ 2)
    (h0 : row.testBit 0 = false) (h32 : row < 2 ^ 32) :
    (if fontPixel d r c ≠ 0 then placePixel cursor c row else row).testBit 0 = false ∧
    (if fontPixel d r c ≠ 0 then placePixel cursor c row else row) < 2 ^ 32 := by
  split_ifs
  · exact placePixel_ok cursor c row (by omega) h0 h32
  · exact ⟨h0, h32⟩

/-- A whole glyph row placed at `cursor ≤ 28` preserves the row invariant. -/
theorem glyphRow_ok (d r cursor row : Nat) (hcur : cursor ≤ 28)
    (h0 : row.testBit 0 = false) (h32 : row < 2 ^ 32) :
    (glyphRow d r cursor row).testBit 0 = false ∧ glyphRow d r cursor row < 2 ^ 32 := by
  have h1 := glyphRow_step_ok d r cursor 0 row hcur (by omega) h0 h32
  have h2 := glyphRow_step_ok d r cursor 1 _ hcur (by omega) h1.1 h1.2
  have h3 := glyphRow_step_ok d r cursor 2 _ hcur (by omega) h2.1 h2.2
  exact h3

/-- `placeGlyph` at `cursor ≤ 28` preserves the row invariant on all 8 rows. -/
theorem placeGlyph_ok (fb : List Nat) (cursor d : Nat) (hcur : cursor ≤ 28)
    (hfb : ∀ r, r < 8 → (fb.getD r 0).testBit 0 = false ∧ fb.getD r 0 < 2 ^ 32) :
    ∀ r, r < 8 → ((placeGlyph fb cursor d).getD r 0).testBit 0 = false ∧
      (placeGlyph fb cursor d).getD r 0 < 2 ^ 32 := by
  intro r hr
  rw [placeGlyph, getD_range8_map _ hr]
  exact glyphRow_ok d r cursor _ hcur (hfb r hr).1 (hfb r hr).2

/-- The glyph-placement loop preserves the row invariant as long as the
starting cursor leaves room for its glyphs (at most 4 columns each). -/
theorem composeGo_ok (ds : List Nat) : ∀ (fb : List Nat) (cursor i : Nat),
    cursor + 4 * ds.length ≤ 32 →
    (∀ r, r < 8 → (fb.getD r 0).testBit 0 = false ∧ fb.getD r 0 < 2 ^ 32) →
    ∀ r, r < 8 → ((composeGo fb cursor i ds).getD r 0).testBit 0 = false ∧
      (composeGo fb cursor i ds).getD r 0 < 2 ^ 32 := by
  induction ds with
  | nil => intro fb cursor i _ hfb; exact hfb
  | cons d rest ih =>
      intro fb cursor i hc hfb
      rw [composeGo]
      have hcur : cursor ≤ 28 := by simp [List.length_cons] at hc; omega
      apply ih
      · simp only [List.length_cons] at hc
        split_ifs <;> omega
      · exact placeGlyph_ok fb cursor d hcur hfb

/-- The checked glyph loop succeeds, and agrees with the unchecked one,
whenever every glyph index is inside the font table and the starting
cursor leaves room. -/
theorem checkedComposeGo_eq (ds : List Nat) : ∀ (fb : List Nat) (cursor i : Nat),
    (∀ d ∈ ds, d < 11) → cursor + 4 * ds.length ≤ 32 →
    checkedComposeGo fb cursor i ds = some (composeGo fb cursor i ds) := by
  induction ds with
  | nil => intro fb cursor i _ _; rfl
  | cons d rest ih =>
      intro fb cursor i hds hc
      have hd : d < 11 := hds d (List.mem_cons_self d rest)
      have hcur : cursor + 2 ≤ 30 := by simp [List.length_cons] at hc; omega
      rw [checkedComposeGo, composeGo, checkedPlaceGlyph, if_pos ⟨hd, hcur⟩]
      simp only [Option.bind_eq_bind, Option.some_bind]
      apply ih
      · intro x hx
        exact hds x (List.mem_cons_of_mem d hx)
      · simp only [List.length_cons] at hc
        split_ifs <;> omega

/-- Unfolding one step of the modelled repeat-interval sequence. -/
theorem repeatSeq_succ (n : Nat) : repeatSeq (n + 1) = nextInterval (repeatSeq n) := rfl

/-- `nextInterval` evaluates to the decayed value while above the floor. -/
theorem nextInterval_eq_of (i v : ℚ) (hv : i * (8 / 10) = v) (h : (20000 : ℚ) ≤ v) :
    nextInterval i = v := by
  rw [nextInterval, hv, max_eq_right h]

/-- The floor value 20000 is a fixed point of `nextInterval`. -/
theorem nextInterval_20000 : nextInterval 20000 = 20000 := by
  rw [nextInterval, max_eq_left (by norm_num)]

/-- Every modelled repeat interval is at least the 20000 microsecond floor. -/
theorem repeatSeq_ge (n : Nat) : (20000 : ℚ) ≤ repeatSeq n := by
  cases n with
  | zero => norm_num [repeatSeq]
  | succ k => rw [repeatSeq_succ, nextInterval]; exact le_max_left _ _

/-- The modelled repeat-interval sequence is non-increasing. -/
theorem repeatSeq_step_le (n : Nat) : repeatSeq (n + 1) ≤ repeatSeq n := by
  rw [repeatSeq_succ, nextInterval]
  refine max_le (repeatSeq_ge n) ?_
  have h := repeatSeq_ge n
  linarith

/-- After 15 decays from 500000 microseconds the interval is exactly the
20000 microsecond floor. -/
theorem repeatSeq_fifteen : repeatSeq 15 = 20000 := by
  have e0 : repeatSeq 0 = 500000 := rfl
  have e1 : repeatSeq 1 = 400000 := by
    rw [repeatSeq_succ 0, e0]; exact nextInterval_eq_of _ _ (by norm_num) (by norm_num)
  have e2 : repeatSeq 2 = 320000 := by
    rw [repeatSeq_succ 1, e1]; exact nextInterval_eq_of _ _ (by norm_num) (by norm_num)
  have e3 : repeatSeq 3 = 256000 := by
    rw [repeatSeq_succ 2, e2]; exact nextInterval_eq_of _ _ (by norm_num) (by norm_num)
  have e4 : repeatSeq 4 = 204800 := by
    rw [repeatSeq_succ 3, e3]; exact nextInterval_eq_of _ _ (by norm_num) (by norm_num)
  have e5 : repeatSeq 5 = 163840 := by
    rw [repeatSeq_succ 4, e4]; exact nextInterval_eq_of _ _ (by norm_num) (by norm_num)
  have e6 : repeatSeq 6 = 131072 := by
    rw [repeatSeq_succ 5, e5]; exact nextInterval_eq_of _ _ (by norm_num) (by norm_num)
  have e7 : repeatSeq 7 = 524288 / 5 := by
    rw [repeatSeq_succ 6, e6]; exact nextInterval_eq_of _ _ (by norm_num) (by norm_num)
  have e8 : repeatSeq 8 = 2097152 / 25 := by
    rw [repeatSeq_succ 7, e7]; exact nextInterval_eq_of _ _ (by norm_num) (by norm_num)
  have e9 : repeatSeq 9 = 8388608 / 125 := by
    rw [repeatSeq_succ 8, e8]; exact nextInterval_eq_of _ _ (by norm_num) (by norm_num)
  have e10 : repeatSeq 10 = 33554432 / 625 := by
    rw [repeatSeq_succ 9, e9]; exact nextInterval_eq_of _ _ (by norm_num) (by norm_num)
  have e11 : repeatSeq 11 = 134217728 / 3125 := by
    rw [repeatSeq_succ 10, e10]; exact nextInterval_eq_of _ _ (by norm_num) (by norm_num)
  have e12 : repeatSeq 12 = 536870912 / 15625 := by
    rw [repeatSeq_succ 11, e11]; exact nextInterval_eq_of _ _ (by norm_num) (by norm_num)
  have e13 : repeatSeq 13 = 2147483648 / 78125 := by
    rw [repeatSeq_succ 12, e12]; exact nextInterval_eq_of _ _ (by norm_num) (by norm_num)
  have e14 : repeatSeq 14 = 8589934592 / 390625 := by
    rw [repeatSeq_succ 13, e13]; exact nextInterval_eq_of _ _ (by norm_num) (by norm_num)
  rw [repeatSeq_succ 14, e14, nextInterval, max_eq_left (by norm_num)]

/-! ### Claim theorems -/

/-- C1: for every in-range ClockState, `tick` at `secs = 59` yields
`secs = 0` and changes the minute and hour fields exactly as one
`add_minute` call would; `tick` at `secs < 59` increments `secs` by one
and leaves `mins` and `hours` unchanged. -/
theorem tick_secs_rollover (s : ClockState)
    (hh : s.hours ≤ 23) (hm : s.mins ≤ 59) (hs : s.secs ≤ 59) :
    (s.secs = 59 →
      s.tick.secs = 0 ∧ s.tick.mins = s.add_minute.mins ∧
        s.tick.hours = s.add_minute.hours) ∧
    (s.secs < 59 →
      s.tick.secs = s.secs + 1 ∧ s.tick.mins = s.mins ∧ s.tick.hours = s.hours) := by
  obtain ⟨h, m, sec⟩ := s
  simp only [ClockState.tick, ClockState.add_minute]
  constructor
  · intro hq
    subst hq
    norm_num
    split_ifs <;> simp
  · intro hq
    rw [if_neg (by simp; omega)]
    exact ⟨rfl, rfl, rfl⟩

/-- Witness for C1 at the concrete states 12:34:59 and 12:34:56. -/
theorem tick_secs_rollover_witness :
    ((ClockState.tick ⟨12, 34, 59⟩).secs = 0 ∧
      (ClockState.tick ⟨12, 34, 59⟩).mins = (ClockState.add_minute ⟨12, 34, 59⟩).mins ∧
      (ClockState.tick ⟨12, 34, 59⟩).hours = (ClockState.add_minute ⟨12, 34, 59⟩).hours) ∧
    ((ClockState.tick ⟨12, 34, 56⟩).secs = 56 + 1 ∧
      (ClockState.tick ⟨12, 34, 56⟩).mins = 34 ∧
      (ClockState.tick ⟨12, 34, 56⟩).hours = 12) :=
  ⟨(tick_secs_rollover ⟨12, 34, 59⟩ (by decide) (by decide) (by decide)).1 rfl,
   (tick_secs_rollover ⟨12, 34, 56⟩ (by decide) (by decide) (by decide)).2 (by decide)⟩

/-- C2: for every in-range ClockState, `add_minute` at `mins = 59` yields
`mins = 0` and `hours = (hours + 1) % 24` (so at `hours = 23` the hour
wraps to 0); at `mins < 59` it only increments `mins`; and `secs` is
never changed by `add_minute`. -/
theorem add_minute_rollover (s : ClockState)
    (hh : s.hours ≤ 23) (hm : s.mins ≤ 59) (hs : s.secs ≤ 59) :
    (s.mins = 59 →
      s.add_minute.mins = 0 ∧ s.add_minute.hours = (s.hours + 1) % 24) ∧
    (s.mins = 59 ∧ s.hours = 23 → s.add_minute.hours = 0) ∧
    (s.mins < 59 →
      s.add_minute.mins = s.mins + 1 ∧ s.add_minute.hours = s.hours) ∧
    s.add_minute.secs = s.secs := by
  obtain ⟨h, m, sec⟩ := s
  simp only [ClockState.add_minute]
  refine ⟨?_, ?_, ?_, ?_⟩
  · rintro rfl
    norm_num
  · rintro ⟨rfl, rfl⟩
    norm_num
  · intro hq
    rw [if_neg (by simp; omega)]
    exact ⟨rfl, rfl⟩
  · split_ifs <;> rfl

/-- Witness for C2 at the concrete states 23:59:56 and 12:34:56. -/
theorem add_minute_rollover_witness :
    ((ClockState.add_minute ⟨23, 59, 56⟩).mins = 0 ∧
      (ClockState.add_minute ⟨23, 59, 56⟩).hours = (23 + 1) % 24) ∧
    (ClockState.add_minute ⟨23, 59, 56⟩).hours = 0 ∧
    ((ClockState.add_minute ⟨12, 34, 56⟩).mins = 34 + 1 ∧
      (ClockState.add_minute ⟨12, 34, 56⟩).hours = 12) ∧
    (ClockState.add_minute ⟨12, 34, 56⟩).secs = 56 :=
  ⟨(add_minute_rollover ⟨23, 59, 56⟩ (by decide) (by decide) (by decide)).1 rfl,
   (add_minute_rollover ⟨23, 59, 56⟩ (by decide) (by decide) (by decide)).2.1 ⟨rfl, rfl⟩,
   (add_minute_rollover ⟨12, 34, 56⟩ (by decide) (by decide) (by decide)).2.2.1 (by decide),
   (add_minute_rollover ⟨12, 34, 56⟩ (by decide) (by decide) (by decide)).2.2.2⟩

/-- C3: every clock mutation of the program (`ClockState::tick`,
`ClockState::add_minute`, and the inline time-update of the 1 Hz
`timer_tick` task in src/main.rs) preserves the range invariant
hours in 0..23, mins in 0..59, secs in 0..59. -/
theorem clock_mutations_preserve_inRange (s : ClockState) (hs : s.inRange) :
    s.tick.inRange ∧ s.add_minute.inRange ∧ (timerTickClock s).inRange := by
  obtain ⟨h, m, sec⟩ := s
  obtain ⟨h1, h2, h3⟩ := hs
  simp only [ClockState.inRange] at *
  simp only [ClockState.tick, ClockState.add_minute, timerTickClock]
  split_ifs <;> simp_all <;> omega

/-- Witness for C3 at the concrete state 23:59:59. -/
theorem clock_mutations_preserve_inRange_witness :
    ClockState.inRange ⟨23, 59, 59⟩ ∧
    (ClockState.tick ⟨23, 59, 59⟩).inRange ∧
    (ClockState.add_minute ⟨23, 59, 59⟩).inRange ∧
    (timerTickClock ⟨23, 59, 59⟩).inRange :=
  ⟨by decide,
   (clock_mutations_preserve_inRange ⟨23, 59, 59⟩ (by decide)).1,
   (clock_mutations_preserve_inRange ⟨23, 59, 59⟩ (by decide)).2.1,
   (clock_mutations_preserve_inRange ⟨23, 59, 59⟩ (by decide)).2.2⟩

/-- C4: for every device index `d < 4` and row `r < 8`, the byte written
for device `d` at row `r` equals `(fb_rows[r] >> (24 - 8 * d)) & 0xFF`,
so device 0 holds the most-significant 8 columns of each packed 32-bit
row and device 3 the least-significant 8 columns. -/
theorem deviceBuffers_byte_formula (rows : List Nat) (d r : Nat)
    (hd : d < 4) (hr : r < 8) :
    ((deviceBuffers rows).getD d []).getD r 0 =
      ((rows.getD r 0) >>> (24 - 8 * d)) &&& 0xFF := by
  interval_cases d <;> interval_cases r <;> rfl

/-- Witness for C4 at device 1, row 0, on a concrete one-row framebuffer. -/
theorem deviceBuffers_byte_formula_witness :
    (1 < 4 ∧ 0 < 8) ∧
    ((deviceBuffers [305419896]).getD 1 []).getD 0 0 =
      ((([305419896] : List Nat).getD 0 0) >>> (24 - 8 * 1)) &&& 0xFF :=
  ⟨⟨by decide, by decide⟩,
   deviceBuffers_byte_formula [305419896] 1 0 (by decide) (by decide)⟩

/-- C5: for every in-range clock, every one of the 8 packed framebuffer
rows built by the compositor of src/display.rs fits in 32 bits (its set
pixels are confined to the 32 columns, of which only 0..30 are ever
written) and has its least-significant bit, column 31, equal to 0. -/
theorem composeRows_column31_blank (h m s : Nat)
    (hh : h ≤ 23) (hm : m ≤ 59) (hs : s ≤ 59) :
    ∀ r, r < 8 → ((composeRows h m s).getD r 0).testBit 0 = false ∧
      (composeRows h m s).getD r 0 < 2 ^ 32 := by
  clear hh hm hs
  apply composeGo_ok
  · simp [digits]
  · intro r hr
    have hz : (List.replicate 8 (0 : Nat)).getD r 0 = 0 := by
      interval_cases r <;> rfl
    rw [hz]
    exact ⟨by simp, by positivity⟩

/-- Witness for C5 at the clock 12:34:56, row 0. -/
theorem composeRows_column31_blank_witness :
    (12 ≤ 23 ∧ 34 ≤ 59 ∧ 56 ≤ 59 ∧ 0 < 8) ∧
    ((composeRows 12 34 56).getD 0 0).testBit 0 = false ∧
    (composeRows 12 34 56).getD 0 0 < 2 ^ 32 :=
  ⟨⟨by decide, by decide, by decide, by decide⟩,
   composeRows_column31_blank 12 34 56 (by decide) (by decide) (by decide) 0 (by decide)⟩

/-- C6: for the concrete clock 12:34:56, the derived glyph-index sequence
is `[1, 2, 10, 3, 4, 10, 5, 6]` (10 being the colon), and every composed
framebuffer row fits in 32 bits with bit 0 (column 31) clear, so the set
pixels are confined to columns 0..30. -/
theorem clock_123456_glyphs_and_columns :
    digits 12 34 56 = [1, 2, 10, 3, 4, 10, 5, 6] ∧
    ∀ r, ((composeRows 12 34 56).getD r 0).testBit 0 = false ∧
      (composeRows 12 34 56).getD r 0 < 2 ^ 32 := by
  refine ⟨by decide, ?_⟩
  intro r
  rcases Nat.lt_or_ge r 8 with h8 | h8
  · interval_cases r <;> exact ⟨by decide, by decide⟩
  · have hl : (composeRows 12 34 56).length = 8 := by decide
    rw [List.getD_eq_getElem?_getD, List.getElem?_eq_none (by omega)]
    exact ⟨by decide, by positivity⟩

/-- C7 counterexample: at the initial program state, the `button_press`
handler of src/main.rs leaves the edge interrupt enabled and arms no
one-shot repeat timer, contradicting the claim that a press disables
edge-triggered entry and arms a 500000 microsecond one-shot timer. -/
theorem button_press_counterexample :
    ¬ ((button_press initProgState).edgeInterruptEnabled = false ∧
       (button_press initProgState).repeatTimer = some 500000) := by
  decide

/-- C7 amended: on a button-press (falling-edge) event, the program
applies `add_minute` semantics to the clock exactly once and requests a
display refresh; it does not disable further edge-triggered entry and
does not arm any repeat timer (src/main.rs implements no contact-bounce
suppression and no auto-repeat). -/
theorem button_press_amended (s : ProgState) :
    (button_press s).clock = s.clock.add_minute ∧
    (button_press s).edgeInterruptEnabled = s.edgeInterruptEnabled ∧
    (button_press s).repeatTimer = s.repeatTimer ∧
    (button_press s).displayRequested = true :=
  ⟨rfl, rfl, rfl, rfl⟩

/-- C8: the modelled auto-repeat interval sequence starts at 500000
microseconds, each step is `max 20000 (interval × 0.8)`, its first values
are 500000, 400000, 320000, 256000, it is monotonically non-increasing
and bounded below by 20000, and once it reaches the 20000 floor (which it
does from step 15 on) it stays there. -/
theorem repeatSeq_decay :
    repeatSeq 0 = 500000 ∧ repeatSeq 1 = 400000 ∧ repeatSeq 2 = 320000 ∧
      repeatSeq 3 = 256000 ∧
    (∀ n, repeatSeq (n + 1) = max 20000 (repeatSeq n * (8 / 10))) ∧
    (∀ n, repeatSeq (n + 1) ≤ repeatSeq n) ∧
    (∀ n, (20000 : ℚ) ≤ repeatSeq n) ∧
    (∀ n, 15 ≤ n → repeatSeq n = 20000) := by
  have e0 : repeatSeq 0 = 500000 := rfl
  have e1 : repeatSeq 1 = 400000 := by
    rw [repeatSeq_succ 0, e0]; exact nextInterval_eq_of _ _ (by norm_num) (by norm_num)
  have e2 : repeatSeq 2 = 320000 := by
    rw [repeatSeq_succ 1, e1]; exact nextInterval_eq_of _ _ (by norm_num) (by norm_num)
  have e3 : repeatSeq 3 = 256000 := by
    rw [repeatSeq_succ 2, e2]; exact nextInterval_eq_of _ _ (by norm_num) (by norm_num)
  refine ⟨e0, e1, e2, e3, fun n => repeatSeq_succ n, repeatSeq_step_le, repeatSeq_ge, ?_⟩
  intro n hn
  obtain ⟨k, rfl⟩ : ∃ k, n = 15 + k := ⟨n - 15, by omega⟩
  clear hn
  induction k with
  | zero => exact repeatSeq_fifteen
  | succ k ih =>
      rw [show 15 + (k + 1) = (15 + k) + 1 from rfl, repeatSeq_succ, ih,
        nextInterval_20000]

/-- Witness for C8: the interval is still exactly the floor at step 16. -/
theorem repeatSeq_decay_witness : 15 ≤ 16 ∧ repeatSeq 16 = 20000 :=
  ⟨by norm_num, repeatSeq_decay.2.2.2.2.2.2.2 16 (by norm_num)⟩

/-- C9: for every in-range clock, every glyph index computed from the
clock fields is at most 10 (inside the 11-entry font table), and the
checked compositor, which fails if a glyph index leaves the table or a
placement column `cursor + c` exceeds 30 (which would underflow the
`31 - (cursor + c)` subtraction), succeeds and agrees with the
unchecked compositor: the composition has no failure mode. -/
theorem compositor_panic_free (h m s : Nat)
    (hh : h ≤ 23) (hm : m ≤ 59) (hs : s ≤ 59) :
    (∀ d ∈ digits h m s, d ≤ 10) ∧
    checkedComposeRows h m s = some (composeRows h m s) := by
  constructor
  · intro d hd
    fin_cases hd <;> omega
  · rw [checkedComposeRows, composeRows]
    apply checkedComposeGo_eq
    · intro d hd
      fin_cases hd <;> omega
    · simp [digits]

/-- Witness for C9 at the clock 12:34:56. -/
theorem compositor_panic_free_witness :
    (12 ≤ 23 ∧ 34 ≤ 59 ∧ 56 ≤ 59) ∧ 10 ≤ 10 ∧
    checkedComposeRows 12 34 56 = some (composeRows 12 34 56) :=
  ⟨⟨by decide, by decide, by decide⟩,
   (compositor_panic_free 12 34 56 (by decide) (by decide) (by decide)).1 10 (by decide),
   (compositor_panic_free 12 34 56 (by decide) (by decide) (by decide)).2⟩

/-- C10: for every in-range clock snapshot, the inline framebuffer
composition and device slicing of the `update_display` task in
src/main.rs produce exactly the four 8-byte device buffers that
`prepare_buffer` of src/display.rs produces for the same clock values. -/
theorem update_display_eq_prepare_buffer (h m s : Nat)
    (hh : h ≤ 23) (hm : m ≤ 59) (hs : s ≤ 59) :
    update_display h m s = prepare_buffer { hours := h, mins := m, secs := s } :=
  rfl

/-- Witness for C10 at the clock 12:34:56. -/
theorem update_display_eq_prepare_buffer_witness :
    (12 ≤ 23 ∧ 34 ≤ 59 ∧ 56 ≤ 59) ∧
    update_display 12 34 56 = prepare_buffer { hours := 12, mins := 34, secs := 56 } :=
  ⟨⟨by decide, by decide, by decide⟩,
   update_display_eq_prepare_buffer 12 34 56 (by decide) (by decide) (by decide)⟩
